import Mathlib

/-!
Verification development for the Board Panel suggestions service
(`src/api.py`, `src/crew.py`, `src/models.py`).

Python strings are modelled as `List Char` (Python indexes strings by code
point, matching list indices).  The embedding keeps the source's structure:
`safe_extract_suggestions` becomes `safeExtract`, the retry loop of
`run_analysis` becomes `retryLoop`, the pydantic suggestion models become
`mkSuggestionsModel`, and the job-record lifecycle becomes `jobTrace`.
-/

/-- The character `{` (written via its code point to keep string scanning simple). -/
def lbrace : Char := Char.ofNat 123

/-- The character `}`. -/
def rbrace : Char := Char.ofNat 125

/-- The character `[`. -/
def lbracket : Char := Char.ofNat 91

/-- The character `]`. -/
def rbracket : Char := Char.ofNat 93

/-- The bullet character used by the line heuristic in `safe_extract_suggestions`. -/
def bulletChar : Char := Char.ofNat 0x2022

/-- Python `str.find(c)` for a single character: index of the first occurrence. -/
def findChar (c : Char) : List Char → Option Nat
  | [] => none
  | a :: as => if a = c then some 0 else (findChar c as).map (· + 1)

/-- Python `str.rfind(c)`: index of the last occurrence. -/
def rfindChar (c : Char) (l : List Char) : Option Nat :=
  (findChar c l.reverse).map (fun i => l.length - 1 - i)

/-- Python slice `s[a:b]` for non-negative bounds. -/
def sliceN (l : List Char) (a b : Nat) : List Char := (l.take b).drop a

/-- Python `str.split(sep)` for a one-character separator (`raw_text.split('\n')`). -/
def splitChar (c : Char) : List Char → List (List Char)
  | [] => [[]]
  | a :: as =>
    let r := splitChar c as
    if a = c then [] :: r
    else
      match r with
      | [] => [[a]]
      | h :: t => (a :: h) :: t

/-- Whitespace stripped by Python `str.strip()` (ASCII subset actually exercised). -/
def isPyWs (c : Char) : Bool :=
  c = ' ' || c = '\t' || c = '\n' || c = '\r' || c = '\x0b' || c = '\x0c'

/-- Python `str.strip()`: drop leading then trailing whitespace. -/
def pyStripL (l : List Char) : List Char :=
  List.rdropWhile isPyWs (l.dropWhile isPyWs)

/-- Python `str.lstrip(chars)`: drop leading characters belonging to `set`. -/
def lstripSet (set : List Char) (l : List Char) : List Char :=
  l.dropWhile (fun c => set.contains c)

/-- Does `p` occur at the start of `s`? -/
def startsWithL : List Char → List Char → Bool
  | [], _ => true
  | _ :: _, [] => false
  | p :: ps, a :: as => p == a && startsWithL ps as

/-- Index of the first occurrence of `pat` as a contiguous sublist. -/
def findSub (pat : List Char) : List Char → Option Nat
  | [] => if startsWithL pat [] then some 0 else none
  | a :: as => if startsWithL pat (a :: as) then some 0 else (findSub pat as).map (· + 1)

/-- Python `sub in s` on strings. -/
def containsSub (pat s : List Char) : Bool := (findSub pat s).isSome

/-- Python `str.split(sep)` for a non-empty separator, fuelled by the input length. -/
def splitSubAux (sep : List Char) : Nat → List Char → List (List Char)
  | 0, s => [s]
  | fuel + 1, s =>
    match findSub sep s with
    | none => [s]
    | some i => s.take i :: splitSubAux sep fuel (s.drop (i + sep.length))

/-- Python `str.split(sep)`. -/
def splitSub (sep s : List Char) : List (List Char) := splitSubAux sep (s.length + 1) s

/-- Python `str.lower()` (ASCII case folding, the only case exercised). -/
def toLowerL (l : List Char) : List Char := l.map Char.toLower

/-- JSON value as produced by Python `json.loads`. -/
inductive PyJson where
  | null
  | bool (b : Bool)
  | num (q : ℚ)
  | str (s : String)
  | arr (elems : List PyJson)
  | obj (fields : List (String × PyJson))
deriving Repr, Inhabited

/-- A list of strings as a Python list object. -/
def strArr (l : List String) : PyJson := PyJson.arr (l.map PyJson.str)

/-- Lookup of `parsed['suggestions']`-style dictionary access. -/
def jlookup (k : String) : List (String × PyJson) → Option PyJson
  | [] => none
  | (k', v) :: rest => if k' = k then some v else jlookup k rest

/-- JSON insignificant whitespace. -/
def isJsonWs (c : Char) : Bool := c = ' ' || c = '\t' || c = '\n' || c = '\r'

/-- Skip JSON whitespace, tracking the byte (code-point) position. -/
def skipWs : List Char → Nat → List Char × Nat
  | [], p => ([], p)
  | c :: cs, p => if isJsonWs c then skipWs cs (p + 1) else (c :: cs, p)

/-- Hex digit value. -/
def hexVal (c : Char) : Option Nat :=
  if '0' ≤ c ∧ c ≤ '9' then some (c.toNat - 48)
  else if 'a' ≤ c ∧ c ≤ 'f' then some (c.toNat - 87)
  else if 'A' ≤ c ∧ c ≤ 'F' then some (c.toNat - 70)
  else none

/--
JSON string scanner, mirroring CPython `py_scanstring`: called just past the
opening quote at position `p`, with `q` the position of the opening quote
(unterminated strings report their error at `q`, as `json.JSONDecodeError`
does).  Returns the decoded string, the remaining input and the position
just past the closing quote.
-/
def parseJStr : List Char → Nat → Nat → List Char → Except Nat (String × List Char × Nat)
  | [], _, q, _ => .error q
  | c :: cs, p, q, acc =>
    if c = '"' then .ok (⟨acc.reverse⟩, cs, p + 1)
    else if c = '\\' then
      match cs with
      | [] => .error q
      | e :: cs2 =>
        if e = '"' then parseJStr cs2 (p + 2) q ('"' :: acc)
        else if e = '\\' then parseJStr cs2 (p + 2) q ('\\' :: acc)
        else if e = '/' then parseJStr cs2 (p + 2) q ('/' :: acc)
        else if e = 'b' then parseJStr cs2 (p + 2) q ('\x08' :: acc)
        else if e = 'f' then parseJStr cs2 (p + 2) q ('\x0c' :: acc)
        else if e = 'n' then parseJStr cs2 (p + 2) q ('\n' :: acc)
        else if e = 'r' then parseJStr cs2 (p + 2) q ('\r' :: acc)
        else if e = 't' then parseJStr cs2 (p + 2) q ('\t' :: acc)
        else if e = 'u' then
          match cs2 with
          | h1 :: h2 :: h3 :: h4 :: cs3 =>
            match hexVal h1, hexVal h2, hexVal h3, hexVal h4 with
            | some a, some b, some c', some d =>
              parseJStr cs3 (p + 6) q (Char.ofNat (((a * 16 + b) * 16 + c') * 16 + d) :: acc)
            | _, _, _, _ => .error (p + 1)
          | _ => .error (p + 1)
        else .error p
    else if c.toNat < 32 then .error p
    else parseJStr cs (p + 1) q (c :: acc)

/-- Digits-to-`Nat` accumulator. -/
def digitsToNat (l : List Char) : Nat :=
  l.foldl (fun n c => n * 10 + (c.toNat - 48)) 0

/-- Longest prefix of decimal digits, with the rest of the input. -/
def takeDigits (l : List Char) : List Char × List Char :=
  (l.takeWhile Char.isDigit, l.dropWhile Char.isDigit)

/-- Assemble a JSON number from its matched parts (sign, integer, fraction, exponent). -/
def jsonNumVal (neg : Bool) (intPart fracPart : List Char) (expNeg : Bool)
    (expPart : List Char) : ℚ :=
  let m : ℚ := (digitsToNat (intPart ++ fracPart) : ℚ) / ((10 : ℚ) ^ fracPart.length)
  let e := digitsToNat expPart
  let scaled : ℚ := if expNeg then m / ((10 : ℚ) ^ e) else m * ((10 : ℚ) ^ e)
  if neg then -scaled else scaled

/--
JSON number scanner following CPython's `NUMBER_RE`
`(-?(?:0|[1-9]\d*))(\.\d+)?([eE][-+]?\d+)?`: matches greedily and returns the
remainder (mismatched tails surface as delimiter errors in the caller).
-/
def parseJNum (s : List Char) (p : Nat) : Except Nat (ℚ × List Char × Nat) :=
  let (neg, s1, p1) :=
    match s with
    | '-' :: rest => (true, rest, p + 1)
    | _ => (false, s, p)
  match s1 with
  | c :: rest =>
    if c = '0' then
      let (intPart, s2, p2) := ([c], rest, p1 + 1)
      numTail neg intPart s2 p2
    else if c.isDigit then
      let (ds, s2) := takeDigits rest
      numTail neg (c :: ds) s2 (p1 + 1 + ds.length)
    else .error p
  | [] => .error p
where
  /-- Optional fraction and exponent after the integer part. -/
  numTail (neg : Bool) (intPart : List Char) (s2 : List Char) (p2 : Nat) :
      Except Nat (ℚ × List Char × Nat) :=
    let (fracPart, s3, p3) :=
      match s2 with
      | '.' :: d :: rest =>
        if d.isDigit then
          let (ds, r) := takeDigits rest
          (d :: ds, r, p2 + 2 + ds.length)
        else ([], s2, p2)
      | _ => ([], s2, p2)
    let (expNeg, expPart, s4, p4) :=
      match s3 with
      | e :: rest =>
        if e = 'e' ∨ e = 'E' then
          match rest with
          | '-' :: d :: r2 =>
            if d.isDigit then
              let (ds, r3) := takeDigits r2
              (true, d :: ds, r3, p3 + 3 + ds.length)
            else (false, [], s3, p3)
          | '+' :: d :: r2 =>
            if d.isDigit then
              let (ds, r3) := takeDigits r2
              (false, d :: ds, r3, p3 + 3 + ds.length)
            else (false, [], s3, p3)
          | d :: r2 =>
            if d.isDigit then
              let (ds, r3) := takeDigits r2
              (false, d :: ds, r3, p3 + 2 + ds.length)
            else (false, [], s3, p3)
          | [] => (false, [], s3, p3)
        else (false, [], s3, p3)
      | [] => (false, [], s3, p3)
    .ok (jsonNumVal neg intPart fracPart expNeg expPart, s4, p4)

mutual

/-- JSON value parser (fuelled; the fuel is an upper bound on nesting work). -/
def parseJVal : Nat → List Char → Nat → Except Nat (PyJson × List Char × Nat)
  | 0, _, p => .error p
  | fuel + 1, s, p =>
    let (s1, p1) := skipWs s p
    match s1 with
    | [] => .error p1
    | c :: rest =>
      if c = '"' then
        match parseJStr rest (p1 + 1) p1 [] with
        | .error q => .error q
        | .ok (str, r, p2) => .ok (.str str, r, p2)
      else if c = lbrace then
        parseJObjFields fuel rest (p1 + 1) true []
      else if c = lbracket then
        parseJArrElems fuel rest (p1 + 1) true []
      else if startsWithL ['t', 'r', 'u', 'e'] s1 then .ok (.bool true, s1.drop 4, p1 + 4)
      else if startsWithL ['f', 'a', 'l', 's', 'e'] s1 then .ok (.bool false, s1.drop 5, p1 + 5)
      else if startsWithL ['n', 'u', 'l', 'l'] s1 then .ok (.null, s1.drop 4, p1 + 4)
      else if c = '-' ∨ c.isDigit then
        match parseJNum s1 p1 with
        | .error q => .error q
        | .ok (q, r, p2) => .ok (.num q, r, p2)
      else .error p1

/-- Elements of a JSON array; `first` is true before any element was read. -/
def parseJArrElems : Nat → List Char → Nat → Bool → List PyJson →
    Except Nat (PyJson × List Char × Nat)
  | 0, _, p, _, _ => .error p
  | fuel + 1, s, p, first, acc =>
    let (s1, p1) := skipWs s p
    match s1 with
    | [] => .error p1
    | c :: rest =>
      if first ∧ c = rbracket then .ok (.arr acc.reverse, rest, p1 + 1)
      else
        match parseJVal fuel s1 p1 with
        | .error q => .error q
        | .ok (v, s2, p2) =>
          let (s3, p3) := skipWs s2 p2
          match s3 with
          | c2 :: rest2 =>
            if c2 = rbracket then .ok (.arr (acc.reverse ++ [v]), rest2, p3 + 1)
            else if c2 = ',' then parseJArrElems fuel rest2 (p3 + 1) false (v :: acc)
            else .error p3
          | [] => .error p3

/-- Members of a JSON object; `first` is true before any member was read. -/
def parseJObjFields : Nat → List Char → Nat → Bool → List (String × PyJson) →
    Except Nat (PyJson × List Char × Nat)
  | 0, _, p, _, _ => .error p
  | fuel + 1, s, p, first, acc =>
    let (s1, p1) := skipWs s p
    match s1 with
    | [] => .error p1
    | c :: rest =>
      if first ∧ c = rbrace then .ok (.obj acc.reverse, rest, p1 + 1)
      else if c = '"' then
        match parseJStr rest (p1 + 1) p1 [] with
        | .error q => .error q
        | .ok (k, s2, p2) =>
          let (s3, p3) := skipWs s2 p2
          match s3 with
          | ':' :: rest3 =>
            match parseJVal fuel rest3 (p3 + 1) with
            | .error q => .error q
            | .ok (v, s4, p4) =>
              let (s5, p5) := skipWs s4 p4
              match s5 with
              | c5 :: rest5 =>
                if c5 = rbrace then .ok (.obj (acc.reverse ++ [(k, v)]), rest5, p5 + 1)
                else if c5 = ',' then parseJObjFields fuel rest5 (p5 + 1) false ((k, v) :: acc)
                else .error p5
              | [] => .error p5
          | _ => .error p3
      else .error p1

end

/--
Python `json.loads` on a code-point list: parse one value, then require only
whitespace to follow; errors carry the failing position (`e.pos`).
-/
def loads (s : List Char) : Except Nat PyJson :=
  match parseJVal (s.length + 2) s 0 with
  | .error p => .error p
  | .ok (v, rest, p) =>
    let (rest2, p2) := skipWs rest p
    match rest2 with
    | [] => .ok v
    | _ => .error p2

/--
Python `float(s)` on the decimal literals this code can produce
(optional sign, digits with optional fraction and exponent, surrounding
whitespace); `none` models `ValueError`.  Special forms (`inf`, `nan`,
underscores) are outside the behaviour exercised by the source.
-/
def pyFloat (s : List Char) : Option ℚ :=
  let t := pyStripL s
  let (neg, t1) :=
    match t with
    | '-' :: rest => (true, rest)
    | '+' :: rest => (false, rest)
    | _ => (false, t)
  let (intPart, t2) := takeDigits t1
  let (fracPart, t3) :=
    match t2 with
    | '.' :: rest => takeDigits rest
    | _ => ([], t2)
  let hasDot := match t2 with | '.' :: _ => true | _ => false
  if intPart = [] ∧ fracPart = [] then none
  else
    let baseVal : ℚ := (digitsToNat (intPart ++ fracPart) : ℚ) / ((10 : ℚ) ^ fracPart.length)
    let rest := if hasDot then t3 else t2
    match rest with
    | [] => some (if neg then -baseVal else baseVal)
    | e :: er =>
      if e = 'e' ∨ e = 'E' then
        let (expNeg, er1) :=
          match er with
          | '-' :: r => (true, r)
          | '+' :: r => (false, r)
          | _ => (false, er)
        let (expDs, er2) := takeDigits er1
        if expDs = [] ∨ er2 ≠ [] then none
        else
          let ev := digitsToNat expDs
          let scaled := if expNeg then baseVal / ((10 : ℚ) ^ ev) else baseVal * ((10 : ℚ) ^ ev)
          some (if neg then -scaled else scaled)
      else none

/--
The pydantic structured payload attached to a crew task output
(`task_output.pydantic`): `suggestions` is `none` when the attribute is
absent, `some l` when present (a validated list of strings).
-/
structure PydModel where
  suggestions : Option (List String)
deriving Repr

/--
A crew task output as consumed by `safe_extract_suggestions`: `pydantic` is
`none` when the attribute is absent or falsy, `raw` / `output` are `none`
when the attribute is absent (`hasattr` fails).
-/
structure TaskOutput where
  pydantic : Option PydModel := none
  raw : Option String := none
  output : Option PyJson := none
deriving Repr

/-- A task output carrying only a raw text (the common free-form LLM reply). -/
def rawOnly (s : String) : TaskOutput := { raw := some s }

/--
Outcome of one extraction method: `found` returns from the function, `cont`
falls through to the next method, `abort` models an exception that escapes
to the outermost `except Exception` handler (which returns the empty list).
-/
inductive MRes where
  | found (v : PyJson)
  | cont
  | abort
deriving Repr

/--
Method 1 of `safe_extract_suggestions`: the pre-validated pydantic payload,
returned when present and non-empty.
-/
def method1 (t : TaskOutput) : Option (List String) :=
  match t.pydantic with
  | none => none
  | some m =>
    match m.suggestions with
    | none => none
    | some l => if l ≠ [] then some l else none

/--
The `'suggestions' in parsed and isinstance(parsed['suggestions'], list)`
check of the embedded-JSON path.  Inside `try/except json.JSONDecodeError`,
a `TypeError` from membership or subscripting a non-dict escapes to the
outer handler (`abort`); an absent key or non-list value falls through.
-/
def checkSuggestions (parsed : PyJson) : MRes :=
  match parsed with
  | .obj fs =>
    match jlookup "suggestions" fs with
    | some (.arr l) => .found (.arr l)
    | _ => .cont
  | .arr es => if es.any (fun e => e matches .str "suggestions") then .abort else .cont
  | .str s => if containsSub "suggestions".data s.data then .abort else .cont
  | _ => .abort

/--
The closing heuristic of the repair path (`src/api.py` lines 121-124):
append `"]}` when more `[` than `]` were opened, else `}` when more `{`
than `}`.
-/
def closeHeur (t : List Char) : List Char :=
  if t.count lbracket > t.count rbracket then t ++ ['"', rbracket, rbrace]
  else if t.count lbrace > t.count rbrace then t ++ [rbrace]
  else t

/--
The repair path (`src/api.py` lines 114-132): truncate `raw[json_start:e.pos]`,
close unbalanced brackets, and retry `json.loads` exactly once; every failure
inside is swallowed by the bare `except` (`cont`).
-/
def repairAttempt (raw : List Char) (jsonStart pos : Nat) : MRes :=
  let truncated := sliceN raw jsonStart pos
  match loads (closeHeur truncated) with
  | .ok (.obj fs) =>
    match jlookup "suggestions" fs with
    | some (.arr l) => .found (.arr l)
    | _ => .cont
  | _ => .cont

/--
The embedded-JSON path of method 2 (`src/api.py` lines 94-132): find the
first `{` and last `}` (`-1` when absent, as in Python), parse the substring,
and on a `JSONDecodeError` run the repair path.
-/
def jsonPathR (raw : List Char) : MRes :=
  let jsIdx : Int := match findChar lbrace raw with | some i => (i : Int) | none => -1
  let jeIdx : Int := (match rfindChar rbrace raw with | some i => (i : Int) | none => -1) + 1
  if jsIdx ≠ -1 ∧ jeIdx > jsIdx then
    let jsonStr := sliceN raw jsIdx.toNat jeIdx.toNat
    match loads jsonStr with
    | .ok parsed => checkSuggestions parsed
    | .error pos => repairAttempt raw jsIdx.toNat pos
  else .cont

/-- The character set of `line.lstrip('0123456789.-•) ')`. -/
def markerChars : List Char :=
  ['0', '1', '2', '3', '4', '5', '6', '7', '8', '9', '.', '-', bulletChar, ')', ' ']

/--
One line of the line-heuristic path: the stripped line must be non-empty and
start with a digit, `-` or `•`; the marker-stripped remainder qualifies when
longer than 20 characters.
-/
def cleanLine (line : List Char) : Option (List Char) :=
  let l := pyStripL line
  match l with
  | [] => none
  | c :: _ =>
    if c.isDigit || c = '-' || c = bulletChar then
      let cleaned := pyStripL (lstripSet markerChars l)
      if cleaned.length > 20 then some cleaned else none
    else none

/-- The qualifying (cleaned) lines of a raw text, in order. -/
def qualLines (raw : List Char) : List (List Char) :=
  (splitChar '\n' raw).filterMap cleanLine

/--
The line-heuristic path (`src/api.py` lines 134-151): accept only when at
least 3 lines qualify, capping the result at `fallback` (5 in every call).
-/
def lineHeuristic (raw : List Char) (fallback : Nat) : Option (List String) :=
  let sugg := qualLines raw
  if sugg.length ≥ 3 then some ((sugg.take fallback).map (fun l => ⟨l⟩)) else none

/--
Method 3 of `safe_extract_suggestions` (`src/api.py` lines 153-164): if the
`output` attribute is a string that parses as a JSON object with a
`suggestions` key, return that value unchecked; every error is swallowed by
the bare `except`.
-/
def method3 (t : TaskOutput) : Option PyJson :=
  match t.output with
  | some (.str s) =>
    match loads s.data with
    | .ok (.obj fs) => jlookup "suggestions" fs
    | _ => none
  | _ => none

/--
`safe_extract_suggestions(task_output, task_name, fallback_count)`
(`src/api.py` lines 76-171), for the `tasks_output[i] if ... else None`
argument shape of `run_analysis`.  The result is the returned Python object;
the final fallback (and the outer exception handler) return the empty list.
-/
def safeExtract (t? : Option TaskOutput) (fallback : Nat := 5) : PyJson :=
  match t? with
  | none => strArr []
  | some t =>
    match method1 t with
    | some l => strArr l
    | none =>
      match t.raw with
      | some raw =>
        match jsonPathR raw.data with
        | .found v => v
        | .abort => strArr []
        | .cont =>
          match lineHeuristic raw.data fallback with
          | some l => strArr l
          | none =>
            match method3 t with
            | some v => v
            | none => strArr []
      | none =>
        match method3 t with
        | some v => v
        | none => strArr []

/-- Python `str.strip()` on a `String`. -/
def pyStrip (s : String) : String := ⟨pyStripL s.data⟩

/--
The `validate_suggestions` list comprehension of the pydantic models in
`src/models.py`: `[s.strip() for s in v if s and s.strip()]`.
-/
def validatedSuggestions (v : List String) : List String :=
  v.filterMap (fun s => if s ≠ "" ∧ pyStrip s ≠ "" then some (pyStrip s) else none)

/--
Construction of `MarketingSuggestions` / `TechSuggestions` /
`OrgHRSuggestions` / `CompetitiveSuggestions` / `FinanceSuggestions`
(`src/models.py`): the field's `min_length=3` / `max_length=7` constraints
run first, then `validate_suggestions` rejects empty input, filters and
strips, and requires at least 3 surviving entries.
-/
def mkSuggestionsModel (v : List String) : Except String (List String) :=
  if v.length < 3 then .error "List should have at least 3 items"
  else if 7 < v.length then .error "List should have at most 7 items"
  else if v = [] then .error "Suggestions list cannot be empty"
  else if (validatedSuggestions v).length < 3 then .error "Need at least 3 suggestions"
  else .ok (validatedSuggestions v)

/-- The five advisory categories, in the crew's fixed order. -/
inductive Category where
  | marketing
  | tech
  | orgHr
  | competitive
  | finance
deriving DecidableEq, Repr

/--
`ordered_tasks` of `BoardPanelCrew.crew()` (`src/crew.py` lines 138-144):
Marketing → Tech → Org/HR → Competitive → Finance, run sequentially.
-/
def orderedTasks : List Category :=
  [.marketing, .tech, .orgHr, .competitive, .finance]

/-- The result object of `crew().kickoff(...)`: its `tasks_output` list. -/
structure CrewResult where
  tasksOutput : List TaskOutput
deriving Repr

/-- Outcome of one `kickoff` attempt: a result, or an exception with message `str(e)`. -/
inductive AttemptOutcome where
  | ok (r : CrewResult)
  | exc (msg : String)

/-- `"rate_limit" in error_str or "429" in error_str or "rate limit" in error_str`. -/
def isRateLimitMsg (low : List Char) : Bool :=
  containsSub "rate_limit".data low || containsSub "429".data low ||
    containsSub "rate limit".data low

/-- `"validation error" in error_str or "invalid json" in error_str`. -/
def isValidationMsg (low : List Char) : Bool :=
  containsSub "validation error".data low || containsSub "invalid json".data low

/--
`error_str.split("try again in")[1].split("s")[0].strip()` fed to `float`;
`none` models the swallowed `ValueError`/`IndexError`.
-/
def parseTryAgain (low : List Char) : Option ℚ :=
  match (splitSub "try again in".data low).get? 1 with
  | some seg =>
    match (splitSub ['s'] seg).get? 0 with
    | some part => pyFloat (pyStripL part)
    | none => none
  | none => none

/--
The `wait_time` computed for a rate-limit failure (`src/api.py` lines
208-215): the parsed "try again in Ns" duration plus 2, defaulting to 10
when the fragment is absent or unparseable.
-/
def rlWaitTime (low : List Char) : ℚ :=
  if containsSub "try again in".data low then
    match parseTryAgain low with
    | some f => f + 2
    | none => 10
  else 10

/-- `delay = max(wait_time, 10 * (2 ** attempt))` (`src/api.py` line 218). -/
def rlDelay (low : List Char) (attempt : Nat) : ℚ :=
  max (rlWaitTime low) (10 * 2 ^ attempt)

/-- `max_retries` of `run_analysis`. -/
def maxRetries : Nat := 5

/-- The terminal rate-limit-exhausted message (`src/api.py` line 223). -/
def rlExhaustMsg : String :=
  "Rate limit exceeded after " ++ toString maxRetries ++
    " retries. Please try again in a few minutes."

/-- How the retry loop of `run_analysis` ends: a crew result, `crew_result is
None` (the schema-validation `break` or an exhausted range), or a raised
exception. -/
inductive LoopEnd where
  | result (r : CrewResult)
  | noResult
  | raised (msg : String)

/-- Observable side effects of the retry loop: `rate_limit_tokens()` calls,
backoff sleeps (in seconds), and the number of attempts started. -/
structure LoopLog where
  acquires : Nat
  sleeps : List ℚ
  attemptsRun : Nat
deriving Repr, DecidableEq

/--
The retry loop of `run_analysis` (`src/api.py` lines 188-232), indexed by the
number of loop iterations still available (`attempt = maxR - remaining`).
Each iteration performs exactly one `rate_limit_tokens()` call, then runs
`kickoff`; failures are classified on the lowercased message: rate-limit
errors back off and retry while attempts remain (raising the exhaustion
error otherwise), schema-validation errors `break` with no result, anything
else re-raises.
-/
def retryLoopAux (outs : Nat → AttemptOutcome) (maxR : Nat) : Nat → LoopEnd × LoopLog
  | 0 => (.noResult, ⟨0, [], 0⟩)
  | remaining + 1 =>
    let attempt := maxR - (remaining + 1)
    match outs attempt with
    | .ok r => (.result r, ⟨1, [], 1⟩)
    | .exc msg =>
      let low := toLowerL msg.data
      if isRateLimitMsg low then
        if attempt < maxR - 1 then
          let d := rlDelay low attempt
          let (e, log) := retryLoopAux outs maxR remaining
          (e, ⟨log.acquires + 1, d :: log.sleeps, log.attemptsRun + 1⟩)
        else (.raised rlExhaustMsg, ⟨1, [], 1⟩)
      else if isValidationMsg low then (.noResult, ⟨1, [], 1⟩)
      else (.raised msg, ⟨1, [], 1⟩)

/-- The retry loop, started with the full attempt budget. -/
def retryLoop (outs : Nat → AttemptOutcome) (maxR : Nat) : LoopEnd × LoopLog :=
  retryLoopAux outs maxR maxR

/-- `parsed['suggestions']`-like value accepted by an `AnalysisResults`
`List[str]` field: a Python list whose elements are all strings. -/
def asStrList : PyJson → Option (List String)
  | .arr es => es.mapM (fun e => match e with | .str s => some s | _ => none)
  | _ => none

/-- `AnalysisResults` (`src/models.py`): the five per-category lists. -/
structure AnalysisResultsM where
  marketing : List String
  tech : List String
  orgHr : List String
  competitive : List String
  finance : List String
deriving Repr, DecidableEq

/-- Terminal outcome of `run_analysis`. -/
inductive JobEnd where
  | completed (r : AnalysisResultsM)
  | failed (msg : String)
deriving Repr

/--
The tail of `run_analysis` after the retry loop (`src/api.py` lines
234-302): a raised exception fails the job; `crew_result is None` raises
"Analysis failed: No result returned from crew" (also failing the job);
otherwise the five positional `safe_extract_suggestions` calls run
(`tasks_output[i] if len(tasks_output) > i else None`) and `AnalysisResults`
validates each value as a list of strings.  A low total suggestion count is
only a warning, never a failure.
-/
def finishJob : LoopEnd → JobEnd
  | .raised msg => .failed msg
  | .noResult => .failed "Analysis failed: No result returned from crew"
  | .result r =>
    let t := r.tasksOutput
    match asStrList (safeExtract (t.get? 0) 5), asStrList (safeExtract (t.get? 1) 5),
        asStrList (safeExtract (t.get? 2) 5), asStrList (safeExtract (t.get? 3) 5),
        asStrList (safeExtract (t.get? 4) 5) with
    | some ms, some ts, some os, some cs, some fs =>
      .completed ⟨ms, ts, os, cs, fs⟩
    | _, _, _, _, _ =>
      .failed "ValidationError: AnalysisResults fields must be lists of strings"

/-- Job status values stored in `analysis_results[analysis_id].status`. -/
inductive JobStatus where
  | queued
  | processing
  | completed
  | failed
deriving DecidableEq, Repr

/-- Is a status terminal? -/
def isTerminal : JobStatus → Bool
  | .completed => true
  | .failed => true
  | _ => false

/-- One stored `AnalysisStatus` record (`src/models.py` lines 180-186). -/
structure JobRec where
  status : JobStatus
  submittedAt : Nat
  completedAt : Option Nat
  result : Option AnalysisResultsM
  error : Option String
deriving Repr

/--
The sequence of states a job record moves through: created `queued` by the
`/api/analyze` handler at time `t0`, set `processing` when `run_analysis`
starts, then exactly one terminal transition at time `t1` — `completed`
(with `result`) or `failed` (with `error`), each stamping `completed_at`.
Each element is the record after one complete transition block of the
source (per §5 of the spec, writes are atomic per state transition).
-/
def jobTrace (outs : Nat → AttemptOutcome) (t0 t1 : Nat) : List JobRec :=
  let fin : JobRec :=
    match finishJob (retryLoop outs maxRetries).1 with
    | .completed r => ⟨.completed, t0, some t1, some r, none⟩
    | .failed m => ⟨.failed, t0, some t1, none, some m⟩
  [⟨.queued, t0, none, none, none⟩, ⟨.processing, t0, none, none, none⟩, fin]

/-- The `/api/results/` read endpoint: a pure lookup that leaves the store
untouched. -/
def getStatusEP (store : String → Option JobRec) (id : String) :
    Option JobRec × (String → Option JobRec) :=
  (store id, store)

/-- Events observable at the rate limiter during one attempt: one
`rate_limit_tokens()` call, then the kickoff's category task calls. -/
inductive RLEvent where
  | acquire
  | taskCall (c : Category)
deriving DecidableEq, Repr

/--
The rate-limiter-relevant trace of one iteration of the retry loop: exactly
one `rate_limit_tokens()` call (`src/api.py` line 191) precedes
`crew().kickoff(...)`, which on success runs all five category tasks with no
further limiter interaction (`src/crew.py` removed `max_rpm`); a failing
kickoff's partial calls are not modelled.
-/
def attemptRLTrace (o : AttemptOutcome) : List RLEvent :=
  RLEvent.acquire ::
    (match o with
    | .ok _ => orderedTasks.map RLEvent.taskCall
    | .exc _ => [])

/-- A prefix of a list that `dropWhile` leaves intact is itself left intact. -/
theorem dropWhile_eq_self_of_prefix {α : Type} (p : α → Bool) {a b : List α}
    (hpre : a <+: b) (hb : b.dropWhile p = b) : a.dropWhile p = a := by
  cases a with
  | nil => simp
  | cons x xs =>
    have hx : p x = false := by
      obtain ⟨t, ht⟩ := hpre
      by_contra hpx
      rw [Bool.not_eq_false] at hpx
      rw [← ht, List.cons_append, List.dropWhile_cons, if_pos hpx] at hb
      have hle := (List.dropWhile_suffix (l := xs ++ t) p).length_le
      rw [hb] at hle
      simp at hle
    rw [List.dropWhile_cons, if_neg (by simp [hx])]

/-- Python `strip` is idempotent. -/
theorem pyStripL_idem (l : List Char) : pyStripL (pyStripL l) = pyStripL l := by
  unfold pyStripL
  have h1 : (l.dropWhile isPyWs).dropWhile isPyWs = l.dropWhile isPyWs :=
    List.dropWhile_idempotent isPyWs l
  have h2 : (List.rdropWhile isPyWs (l.dropWhile isPyWs)).dropWhile isPyWs =
      List.rdropWhile isPyWs (l.dropWhile isPyWs) :=
    dropWhile_eq_self_of_prefix isPyWs
      (List.rdropWhile_prefix isPyWs (l.dropWhile isPyWs)) h1
  rw [h2, List.rdropWhile_idempotent]

/-- `String` version of `pyStripL_idem`. -/
theorem pyStrip_idem (s : String) : pyStrip (pyStrip s) = pyStrip s := by
  unfold pyStrip
  exact congrArg String.mk (pyStripL_idem s.data)

/-- Outcome stream in which every kickoff attempt succeeds with outputs `ts`. -/
def allOk (ts : List TaskOutput) : Nat → AttemptOutcome := fun _ => .ok ⟨ts⟩

/-- Is an event one of the kickoff's category task calls? -/
def isTaskCall : RLEvent → Bool
  | .taskCall _ => true
  | _ => false

/--
C1: in the code, one successful attempt of the retry loop performs exactly
one `rate_limit_tokens()` acquisition while the kickoff makes five category
task calls — the limiter is invoked once per job attempt, not the five
times (once per category call) the claim states.  The loop log confirms a
single acquisition for a first-attempt success.
-/
theorem C1_limiter_once_per_attempt :
    (∀ ts, (attemptRLTrace (.ok ⟨ts⟩)).count RLEvent.acquire = 1 ∧
      ((attemptRLTrace (.ok ⟨ts⟩)).filter isTaskCall).length = 5) ∧
    (∀ ts, (retryLoop (allOk ts) maxRetries).2.acquires = 1 ∧
      (retryLoop (allOk ts) maxRetries).2.attemptsRun = 1) ∧
    (1 : Nat) ≠ 5 :=
  ⟨fun _ => ⟨rfl, rfl⟩, fun _ => ⟨rfl, rfl⟩, by decide⟩

/-- A kickoff failure stream raising a pydantic schema-validation error. -/
def valErrOuts : Nat → AttemptOutcome :=
  fun _ => .exc "1 validation error for TechSuggestions suggestions Field required"

/--
C2: in the code, a schema-validation failure breaks out of the retry loop
with `crew_result` still `None` (no further attempt), after which
`run_analysis` raises "Analysis failed: No result returned from crew" —
so the job transitions to Failed and extraction never runs, contrary to
the claim (and to the source's own comment "we'll handle this in
extraction").
-/
theorem C2_validation_error_fails_job :
    (retryLoop valErrOuts maxRetries).1 = LoopEnd.noResult ∧
    (retryLoop valErrOuts maxRetries).2.attemptsRun = 1 ∧
    finishJob (retryLoop valErrOuts maxRetries).1 =
      JobEnd.failed "Analysis failed: No result returned from crew" ∧
    jobTrace valErrOuts 0 1 =
      [⟨JobStatus.queued, 0, none, none, none⟩,
       ⟨JobStatus.processing, 0, none, none, none⟩,
       ⟨JobStatus.failed, 0, some 1, none,
        some "Analysis failed: No result returned from crew"⟩] :=
  ⟨rfl, rfl, rfl, rfl⟩

/--
C4: the extraction function is total — the absent (`None`) output maps to
the empty list, an input on which every path fails maps to the empty list,
and an internal exception escaping the embedded-JSON path (`abort`) is
caught by the outer handler, which also returns the empty list.
-/
theorem C4_extraction_total :
    (safeExtract none 5 = strArr []) ∧
    (∀ t : TaskOutput, method1 t = none →
      (∀ raw, t.raw = some raw → jsonPathR raw.data = MRes.cont ∧
        lineHeuristic raw.data 5 = none) →
      method3 t = none → safeExtract (some t) 5 = strArr []) ∧
    (∀ (t : TaskOutput) (raw : String), method1 t = none → t.raw = some raw →
      jsonPathR raw.data = MRes.abort → safeExtract (some t) 5 = strArr []) := by
  refine ⟨rfl, ?_, ?_⟩
  · intro t h1 h2 h3
    cases hr : t.raw with
    | none => simp [safeExtract, h1, hr, h3]
    | some raw =>
      obtain ⟨hj, hl⟩ := h2 raw hr
      simp [safeExtract, h1, hr, hj, hl, h3]
  · intro t raw h1 hr hj
    simp [safeExtract, h1, hr, hj]

/-- Witness for C4: a plain-prose reply defeats every path and yields `[]`. -/
theorem C4_extraction_total_witness :
    safeExtract (some (rawOnly "no json here")) 5 = strArr [] :=
  C4_extraction_total.2.1 (rawOnly "no json here") rfl
    (fun _ hr => by cases hr; exact ⟨rfl, rfl⟩) rfl

/--
C5: when the structured path yields nothing and the raw text has a `{` at
index `i` and its last `}` at index `j ≥ i`, the embedded-JSON path parses
`raw[i : j+1]`; if that parses to an object whose `suggestions` key holds a
list, extraction returns exactly that list.
-/
theorem C5_embedded_json_path (t : TaskOutput) (raw : String) (i j : Nat)
    (p : List (String × PyJson)) (l : List PyJson)
    (h1 : method1 t = none) (hr : t.raw = some raw)
    (hi : findChar lbrace raw.data = some i)
    (hj : rfindChar rbrace raw.data = some j) (hij : i ≤ j)
    (hp : loads (sliceN raw.data i (j + 1)) = Except.ok (PyJson.obj p))
    (hl : jlookup "suggestions" p = some (PyJson.arr l)) :
    safeExtract (some t) 5 = PyJson.arr l := by
  have hti : ((i : Int)).toNat = i := rfl
  have htj : (((j : Int)) + 1).toNat = j + 1 := by omega
  have hjson : jsonPathR raw.data = MRes.found (PyJson.arr l) := by
    simp only [jsonPathR, hi, hj]
    rw [if_pos (by constructor <;> omega)]
    rw [hti, htj, hp]
    simp [checkSuggestions, hl]
  simp [safeExtract, h1, hr, hjson]

/-- The C5 example text from the spec. -/
def hereText : String := "Here: \x7b\"suggestions\": [\"x\",\"y\",\"z\"]\x7d trailing"

/-- Witness for C5: the spec's example raw text extracts `["x","y","z"]`. -/
theorem C5_embedded_json_path_witness :
    safeExtract (some (rawOnly hereText)) 5 = strArr ["x", "y", "z"] :=
  C5_embedded_json_path (rawOnly hereText) hereText 6 35
    [("suggestions", PyJson.arr [PyJson.str "x", PyJson.str "y", PyJson.str "z"])]
    [PyJson.str "x", PyJson.str "y", PyJson.str "z"]
    rfl rfl rfl rfl (by decide) rfl rfl

/-- The C6 truncated example from the spec. -/
def truncText : String := "\x7b\"suggestions\": [\"x\",\"y\""

/--
C6: the repair path's closing heuristic appends `"]}`  when more `[` than
`]` are open, else `}` when more `{` than `}`; a parse failure of the
embedded-JSON substring at offset `pos` hands `raw`, the `{` index and
`pos` to the single repair retry; and on the spec's truncated example
extraction falls through to the line-heuristic path without raising
(its raw text has no `}`, so the JSON path is skipped entirely and the
result is the empty list).
-/
theorem C6_repair_path :
    (∀ t : List Char, t.count lbracket > t.count rbracket →
      closeHeur t = t ++ ['"', rbracket, rbrace]) ∧
    (∀ t : List Char, ¬ t.count lbracket > t.count rbracket →
      t.count lbrace > t.count rbrace → closeHeur t = t ++ [rbrace]) ∧
    (∀ (raw : List Char) (i j pos : Nat), findChar lbrace raw = some i →
      rfindChar rbrace raw = some j → i ≤ j →
      loads (sliceN raw i (j + 1)) = Except.error pos →
      jsonPathR raw = repairAttempt raw i pos) ∧
    (safeExtract (some (rawOnly truncText)) 5 = strArr ["x", "y"] ∨
      (jsonPathR truncText.data = MRes.cont ∧
        safeExtract (some (rawOnly truncText)) 5 = strArr [])) := by
  refine ⟨?_, ?_, ?_, Or.inr ⟨rfl, rfl⟩⟩
  · intro t h
    unfold closeHeur
    rw [if_pos h]
  · intro t h1 h2
    unfold closeHeur
    rw [if_neg h1, if_pos h2]
  · intro raw i j pos hi hj hij hp
    have hti : ((i : Int)).toNat = i := rfl
    have htj : (((j : Int)) + 1).toNat = j + 1 := by omega
    simp only [jsonPathR, hi, hj]
    rw [if_pos (by constructor <;> omega)]
    rw [hti, htj, hp]

/-- Witness for C6: the bracket-closing equations at concrete inputs. -/
theorem C6_repair_path_witness :
    closeHeur [lbracket] = [lbracket, '"', rbracket, rbrace] ∧
    closeHeur [lbrace] = [lbrace, rbrace] :=
  ⟨C6_repair_path.1 [lbracket] (by decide),
   C6_repair_path.2.1 [lbrace] (by decide) (by decide)⟩

/-- A raw text with exactly two qualifying bulleted lines. -/
def twoLinesText : String :=
  "- improve the onboarding flow significantly\n- invest in customer retention programs\nplain prose line"

/-- A raw text with exactly four qualifying bulleted lines. -/
def fourLinesText : String :=
  "- improve the onboarding flow significantly\n- invest in customer retention programs\n- hire a dedicated growth marketing lead\n- run pricing experiments every quarter"

set_option maxRecDepth 100000 in
/--
C7: the line-heuristic path succeeds exactly on the qualifying lines
(marker-led, cleaned remainder longer than 20 characters), only when at
least 3 qualify, capped at 5; two qualifying lines contribute nothing
(extraction degrades to the empty list), and four qualifying lines return
exactly those four cleaned lines.
-/
theorem C7_line_heuristic :
    (∀ raw l, lineHeuristic raw 5 = some l →
      3 ≤ (qualLines raw).length ∧
      l = ((qualLines raw).take 5).map (fun cs => (⟨cs⟩ : String)) ∧
      3 ≤ l.length ∧ l.length ≤ 5) ∧
    (∀ raw, (qualLines raw).length < 3 → lineHeuristic raw 5 = none) ∧
    (qualLines twoLinesText.data).length = 2 ∧
    safeExtract (some (rawOnly twoLinesText)) 5 = strArr [] ∧
    safeExtract (some (rawOnly fourLinesText)) 5 = strArr
      ["improve the onboarding flow significantly",
       "invest in customer retention programs",
       "hire a dedicated growth marketing lead",
       "run pricing experiments every quarter"] := by
  refine ⟨?_, ?_, rfl, rfl, rfl⟩
  · intro raw l h
    unfold lineHeuristic at h
    by_cases hlen : (qualLines raw).length ≥ 3
    · rw [if_pos hlen] at h
      have hl : l = ((qualLines raw).take 5).map (fun cs => (⟨cs⟩ : String)) :=
        (Option.some_inj.mp h).symm
      refine ⟨hlen, hl, ?_, ?_⟩ <;>
        · rw [hl]
          simp only [List.length_map, List.length_take]
          omega
    · rw [if_neg hlen] at h
      exact absurd h (by simp)
  · intro raw h
    unfold lineHeuristic
    rw [if_neg (by omega)]

/-- Witness for C7: the four-line text's qualifying lines through the
general characterisation. -/
theorem C7_line_heuristic_witness :
    3 ≤ (qualLines fourLinesText.data).length :=
  (C7_line_heuristic.1 fourLinesText.data
    ["improve the onboarding flow significantly",
     "invest in customer retention programs",
     "hire a dedicated growth marketing lead",
     "run pricing experiments every quarter"] rfl).1

/-- A raw reply whose embedded JSON carries an empty and an untrimmed string. -/
def cxText : String := "\x7b\"suggestions\": [\"\", \" x \"]\x7d"

/--
C8 counterexample: the embedded-JSON path returns the parsed list verbatim,
so extraction produces the non-empty set `["", " x "]` — length 2 (outside
[3,7]) containing an empty, untrimmed string — refuting the claimed
invariant for extraction output.
-/
theorem C8_counterexample :
    safeExtract (some (rawOnly cxText)) 5 = strArr ["", " x "] ∧
    strArr ["", " x "] ≠ strArr [] ∧
    ¬ (3 ≤ (["", " x "] : List String).length) ∧
    "" ∈ (["", " x "] : List String) ∧
    pyStrip " x " ≠ " x " := by
  refine ⟨rfl, ?_, by decide, by decide, by decide⟩
  simp [strArr]

/--
C8 amended: the [3,7]-length and non-empty-trimmed-string invariant holds
for SuggestionSets produced by the structured (pydantic-validated) path —
`mkSuggestionsModel` — not for raw-JSON extraction output, which is passed
through as parsed.
-/
theorem C8_structured_path_invariant (v r : List String)
    (h : mkSuggestionsModel v = Except.ok r) :
    3 ≤ r.length ∧ r.length ≤ 7 ∧ ∀ s ∈ r, s ≠ "" ∧ pyStrip s = s := by
  unfold mkSuggestionsModel at h
  by_cases h3 : v.length < 3
  · rw [if_pos h3] at h
    exact absurd h (by simp)
  rw [if_neg h3] at h
  by_cases h7 : 7 < v.length
  · rw [if_pos h7] at h
    exact absurd h (by simp)
  rw [if_neg h7] at h
  by_cases he : v = []
  · rw [if_pos he] at h
    exact absurd h (by simp)
  rw [if_neg he] at h
  by_cases hw : (validatedSuggestions v).length < 3
  · rw [if_pos hw] at h
    exact absurd h (by simp)
  rw [if_neg hw] at h
  injection h with hr'
  have hr : r = validatedSuggestions v := hr'.symm
  refine ⟨?_, ?_, ?_⟩
  · rw [hr]
    omega
  · rw [hr]
    have hle : (validatedSuggestions v).length ≤ v.length :=
      List.length_filterMap_le _ _
    omega
  · intro s hs
    rw [hr] at hs
    obtain ⟨a, _, hfa⟩ := List.mem_filterMap.mp hs
    by_cases hcond : a ≠ "" ∧ pyStrip a ≠ ""
    · rw [if_pos hcond] at hfa
      obtain rfl := Option.some_inj.mp hfa
      exact ⟨hcond.2, pyStrip_idem a⟩
    · rw [if_neg hcond] at hfa
      exact absurd hfa (by simp)

/-- Witness for C8: a concrete validated model satisfies the invariant. -/
theorem C8_structured_path_invariant_witness :
    3 ≤ (["grow seo traffic", "hire a recruiter", "ship weekly"] : List String).length ∧
    (["grow seo traffic", "hire a recruiter", "ship weekly"] : List String).length ≤ 7 ∧
    ∀ s ∈ (["grow seo traffic", "hire a recruiter", "ship weekly"] : List String),
      s ≠ "" ∧ pyStrip s = s :=
  C8_structured_path_invariant ["grow seo traffic", " hire a recruiter ", "ship weekly"]
    ["grow seo traffic", "hire a recruiter", "ship weekly"] rfl

/-- One unfolding step of the retry loop. -/
theorem retryLoopAux_succ (outs : Nat → AttemptOutcome) (maxR remaining : Nat) :
    retryLoopAux outs maxR (remaining + 1) =
      match outs (maxR - (remaining + 1)) with
      | .ok r => (LoopEnd.result r, ⟨1, [], 1⟩)
      | .exc msg =>
        if isRateLimitMsg (toLowerL msg.data) then
          if maxR - (remaining + 1) < maxR - 1 then
            match retryLoopAux outs maxR remaining with
            | (e, log) =>
              (e, ⟨log.acquires + 1,
                rlDelay (toLowerL msg.data) (maxR - (remaining + 1)) :: log.sleeps,
                log.attemptsRun + 1⟩)
          else (LoopEnd.raised rlExhaustMsg, ⟨1, [], 1⟩)
        else if isValidationMsg (toLowerL msg.data) then (LoopEnd.noResult, ⟨1, [], 1⟩)
        else (LoopEnd.raised msg, ⟨1, [], 1⟩) := rfl

/--
C9: if the crew returns fewer than five task outputs, every missing
position maps to the empty SuggestionSet (no indexing error), and —
provided the extracted values pass the `AnalysisResults` field validation —
the job still reaches Completed, with the full record trace ending in a
completed record.
-/
theorem C9_response_deficit (outs : Nat → AttemptOutcome) (r : CrewResult)
    (h0 : outs 0 = AttemptOutcome.ok r) (hk : r.tasksOutput.length < 5)
    (hall : ∀ i, (asStrList (safeExtract (r.tasksOutput.get? i) 5)).isSome) :
    (∀ i, r.tasksOutput.length ≤ i →
      safeExtract (r.tasksOutput.get? i) 5 = strArr []) ∧
    (retryLoop outs maxRetries).1 = LoopEnd.result r ∧
    ∃ res, finishJob (retryLoop outs maxRetries).1 = JobEnd.completed res ∧
      ∀ t0 t1, jobTrace outs t0 t1 =
        [⟨JobStatus.queued, t0, none, none, none⟩,
         ⟨JobStatus.processing, t0, none, none, none⟩,
         ⟨JobStatus.completed, t0, some t1, some res, none⟩] := by
  have hloop : retryLoop outs maxRetries = (LoopEnd.result r, ⟨1, [], 1⟩) := by
    show retryLoopAux outs maxRetries (4 + 1) = _
    rw [retryLoopAux_succ, show maxRetries - (4 + 1) = 0 from rfl, h0]
  obtain ⟨l0, hl0⟩ := Option.isSome_iff_exists.mp (hall 0)
  obtain ⟨l1, hl1⟩ := Option.isSome_iff_exists.mp (hall 1)
  obtain ⟨l2, hl2⟩ := Option.isSome_iff_exists.mp (hall 2)
  obtain ⟨l3, hl3⟩ := Option.isSome_iff_exists.mp (hall 3)
  obtain ⟨l4, hl4⟩ := Option.isSome_iff_exists.mp (hall 4)
  have hfin : finishJob (retryLoop outs maxRetries).1 =
      JobEnd.completed ⟨l0, l1, l2, l3, l4⟩ := by
    rw [hloop]
    show finishJob (LoopEnd.result r) = _
    simp only [finishJob, hl0, hl1, hl2, hl3, hl4]
  refine ⟨?_, by rw [hloop], ⟨l0, l1, l2, l3, l4⟩, hfin, ?_⟩
  · intro i hi
    rw [List.get?_eq_none.mpr hi]
    rfl
  · intro t0 t1
    simp only [jobTrace]
    rw [hfin]

/-- Witness for C9: a crew result with zero task outputs completes with all
categories empty. -/
theorem C9_response_deficit_witness :
    safeExtract ((⟨[]⟩ : CrewResult).tasksOutput.get? 4) 5 = strArr [] ∧
    ∃ res, finishJob (retryLoop (allOk []) maxRetries).1 = JobEnd.completed res :=
  ⟨(C9_response_deficit (allOk []) ⟨[]⟩ rfl (by decide) (fun i => by cases i <;> rfl)).1
      4 (by decide),
   ((C9_response_deficit (allOk []) ⟨[]⟩ rfl (by decide)
      (fun i => by cases i <;> rfl)).2.2).imp (fun res h => h.1)⟩

/-- When every attempt fails with a rate-limit-classified message, the loop
exhausts its budget and raises the terminal rate-limit-exhausted error. -/
theorem retryLoopAux_allRateLimited (outs : Nat → AttemptOutcome)
    (h : ∀ i, i < maxRetries → ∃ m, outs i = AttemptOutcome.exc m ∧
      isRateLimitMsg (toLowerL m.data) = true) :
    ∀ remaining, 1 ≤ remaining → remaining ≤ maxRetries →
      (retryLoopAux outs maxRetries remaining).1 = LoopEnd.raised rlExhaustMsg := by
  have h5 : maxRetries = 5 := rfl
  intro remaining
  induction remaining with
  | zero => omega
  | succ n ih =>
    intro _ hle
    obtain ⟨m, hm, hrl⟩ := h (maxRetries - (n + 1)) (by omega)
    rw [retryLoopAux_succ]
    simp only [hm, hrl, if_true]
    by_cases hn : n = 0
    · subst hn
      rw [if_neg (by omega)]
    · rw [if_pos (by omega)]
      rcases hrec : retryLoopAux outs maxRetries n with ⟨e, log⟩
      have he := ih (by omega) (by omega)
      rw [hrec] at he
      simpa using he

/--
C10: on a rate-limit-classified failure with attempts remaining, the wait is
`max` of the parsed "try again in Ns" duration plus 2 (defaulting to 10 when
absent or unparseable) and the exponential backoff `10 * 2 ^ attempt`; a
rate-limit failure on the first attempt followed by a success causes exactly
one backoff sleep of that amount and a second attempt; and when every
attempt is rate-limited, the loop surfaces the terminal
rate-limit-exhausted error.
-/
theorem C10_rate_limit_backoff (msg : String) (outs : Nat → AttemptOutcome)
    (r : CrewResult)
    (hrl : isRateLimitMsg (toLowerL msg.data) = true)
    (h0 : outs 0 = AttemptOutcome.exc msg) (h1 : outs 1 = AttemptOutcome.ok r) :
    (∀ attempt, rlDelay (toLowerL msg.data) attempt =
      max (rlWaitTime (toLowerL msg.data)) (10 * 2 ^ attempt)) ∧
    (containsSub "try again in".data (toLowerL msg.data) = false →
      rlWaitTime (toLowerL msg.data) = 10) ∧
    (∀ q, parseTryAgain (toLowerL msg.data) = some q →
      rlWaitTime (toLowerL msg.data) = q + 2) ∧
    retryLoop outs maxRetries =
      (LoopEnd.result r, ⟨2, [rlDelay (toLowerL msg.data) 0], 2⟩) ∧
    (∀ outs2 : Nat → AttemptOutcome,
      (∀ i, i < maxRetries → ∃ m, outs2 i = AttemptOutcome.exc m ∧
        isRateLimitMsg (toLowerL m.data) = true) →
      (retryLoop outs2 maxRetries).1 = LoopEnd.raised rlExhaustMsg) := by
  refine ⟨fun _ => rfl, ?_, ?_, ?_, ?_⟩
  · intro hc
    unfold rlWaitTime
    rw [if_neg (by simp [hc])]
  · intro q hq
    have hc : containsSub "try again in".data (toLowerL msg.data) = true := by
      by_contra hc
      rw [Bool.not_eq_true] at hc
      have hnone : findSub "try again in".data (toLowerL msg.data) = none := by
        cases hfs : findSub "try again in".data (toLowerL msg.data) with
        | none => rfl
        | some k =>
          unfold containsSub at hc
          rw [hfs] at hc
          simp at hc
      have hsplit : splitSub "try again in".data (toLowerL msg.data) =
          [toLowerL msg.data] := by
        unfold splitSub
        rw [splitSubAux, hnone]
      unfold parseTryAgain at hq
      rw [hsplit] at hq
      simp at hq
    unfold rlWaitTime
    rw [if_pos hc, hq]
  · have h4 : retryLoopAux outs maxRetries 4 = (LoopEnd.result r, ⟨1, [], 1⟩) := by
      show retryLoopAux outs maxRetries (3 + 1) = _
      rw [retryLoopAux_succ, show maxRetries - (3 + 1) = 1 from rfl, h1]
    show retryLoopAux outs maxRetries (4 + 1) = _
    rw [retryLoopAux_succ, show maxRetries - (4 + 1) = 0 from rfl, h0]
    simp only [hrl, if_true]
    rw [if_pos (by decide), h4]
  · intro outs2 h2
    exact retryLoopAux_allRateLimited outs2 h2 maxRetries (by decide) (by decide)

/-- A concrete Groq-style rate-limit failure message. -/
def rlMsgEx : String := "Rate limit reached. Please try again in 7.5s."

/-- Outcome stream: rate-limited on the first attempt, success on the second. -/
def rlThenOk : Nat → AttemptOutcome :=
  fun i => if i = 0 then .exc rlMsgEx else .ok ⟨[]⟩

/-- Witness for C10: a rate-limited first attempt followed by a success
runs exactly two attempts with one backoff sleep. -/
theorem C10_rate_limit_backoff_witness :
    retryLoop rlThenOk maxRetries =
      (LoopEnd.result ⟨[]⟩, ⟨2, [rlDelay (toLowerL rlMsgEx.data) 0], 2⟩) :=
  (C10_rate_limit_backoff rlMsgEx rlThenOk ⟨[]⟩ rfl rfl rfl).2.2.2.1

/-- One legal transition of the job-record state machine. -/
def allowedStep (a b : JobRec) : Prop :=
  (a.status = JobStatus.queued ∧ b.status = JobStatus.processing ∧
    a.completedAt = none ∧ b.completedAt = none) ∨
  (a.status = JobStatus.processing ∧ isTerminal b.status = true ∧
    a.completedAt = none ∧ b.completedAt ≠ none)

/--
C3: every job's record moves Queued → Processing → (Completed | Failed),
the completion timestamp is set exactly at the single terminal transition,
`result` is present only when Completed and `error` only when Failed, a
terminal record is the last state (nothing mutates it afterwards), and the
status read endpoint never writes the store.
-/
theorem C3_job_lifecycle (outs : Nat → AttemptOutcome) (t0 t1 : Nat) :
    List.Chain' allowedStep (jobTrace outs t0 t1) ∧
    (∀ rec ∈ jobTrace outs t0 t1, rec.result.isSome → rec.status = JobStatus.completed) ∧
    (∀ rec ∈ jobTrace outs t0 t1, rec.error.isSome → rec.status = JobStatus.failed) ∧
    (∀ rec ∈ jobTrace outs t0 t1,
      rec.completedAt.isSome ↔ isTerminal rec.status = true) ∧
    (∀ i (hi : i < (jobTrace outs t0 t1).length),
      isTerminal ((jobTrace outs t0 t1).get ⟨i, hi⟩).status = true → i = 2) ∧
    (∀ store id, (getStatusEP store id).2 = store) := by
  obtain ⟨st, hterm, res, err, hres, herr, htr⟩ :
      ∃ (st : JobStatus) (_ : isTerminal st = true) (res : Option AnalysisResultsM)
        (err : Option String) (_ : res.isSome → st = JobStatus.completed)
        (_ : err.isSome → st = JobStatus.failed),
        jobTrace outs t0 t1 =
          [⟨JobStatus.queued, t0, none, none, none⟩,
           ⟨JobStatus.processing, t0, none, none, none⟩,
           ⟨st, t0, some t1, res, err⟩] := by
    cases hfin : finishJob (retryLoop outs maxRetries).1 with
    | completed r =>
      exact ⟨JobStatus.completed, rfl, some r, none, fun _ => rfl, by simp,
        by simp [jobTrace, hfin]⟩
    | failed m =>
      exact ⟨JobStatus.failed, rfl, none, some m, by simp, fun _ => rfl,
        by simp [jobTrace, hfin]⟩
  rw [htr]
  refine ⟨?_, ?_, ?_, ?_, ?_, fun _ _ => rfl⟩
  · exact List.chain'_cons.mpr ⟨Or.inl ⟨rfl, rfl, rfl, rfl⟩,
      List.chain'_cons.mpr ⟨Or.inr ⟨rfl, hterm, rfl, by simp⟩,
        List.chain'_singleton _⟩⟩
  · intro rec hrec
    simp only [List.mem_cons, List.not_mem_nil, or_false] at hrec
    rcases hrec with rfl | rfl | rfl
    · simp
    · simp
    · exact fun h => hres h
  · intro rec hrec
    simp only [List.mem_cons, List.not_mem_nil, or_false] at hrec
    rcases hrec with rfl | rfl | rfl
    · simp
    · simp
    · exact fun h => herr h
  · intro rec hrec
    simp only [List.mem_cons, List.not_mem_nil, or_false] at hrec
    rcases hrec with rfl | rfl | rfl
    · simp [isTerminal]
    · simp [isTerminal]
    · simp [hterm]
  · intro i hi hti
    have h3 : i < 3 := by simpa using hi
    interval_cases i
    · simp [List.get, isTerminal] at hti
    · simp [List.get, isTerminal] at hti
    · rfl

/-- Witness for C3: the record trace of an immediately successful job is a
legal chain. -/
theorem C3_job_lifecycle_witness :
    List.Chain' allowedStep (jobTrace (allOk []) 0 1) :=
  (C3_job_lifecycle (allOk []) 0 1).1
